import Mathlib

/-!
Verification of the filesystem abstraction layer: the context-aware
stream contracts with their io-compatibility adapters, the byte-budget
limiting decorator, and the scheme-based implementation registry with
its dispatch facade.

Modelling conventions:
  - Errors are first-class values; distinct sentinel errors are distinct
    constructors, backend-specific errors are carried by an index.
  - A context is either the background context or some other
    (cancellable / deadline-carrying) context identified by an index.
  - A stream is modelled as a deterministic state machine over an
    abstract state type: a read takes a context, the current state and
    the length of the caller buffer, and yields the byte count, the
    error slot and the successor state.  Buffer contents are irrelevant
    to every property below, so buffers are abstracted to their lengths.
  - The Go field N of LimitedReadCloser is an int64; it is modelled as
    an unbounded Int since no property here exercises wraparound.
  - The process-wide mutable registry map is modelled by explicit state
    passing: each registry operation takes the registry as an argument,
    and registration returns the updated registry.
-/

namespace Filesystem

/-- Error values of the framework: end-of-stream, the unsupported
operation sentinel EUNSUPP, the no-filesystem sentinel ENOFS, and
opaque backend errors. -/
inductive FsError where
  | eof
  | eunsupp
  | enofs
  | other (code : Nat)
deriving DecidableEq, Repr

/-- A cancellation context: the non-cancellable background context or
some other context identified by an index. -/
inductive Ctx where
  | background
  | other (id : Nat)
deriving DecidableEq, Repr

/-- Behaviour of a context-aware ReadCloser over state type sigma:
read takes a context, a state and the caller buffer length and returns
the byte count, the error slot and the successor state; close takes a
context and a state and returns the error slot. -/
structure ReadCloserM (σ : Type) where
  read : Ctx → σ → Nat → Nat × Option FsError × σ
  close : Ctx → σ → Option FsError

/-- Behaviour of a context-aware WriteCloser over state type tau. -/
structure WriteCloserM (τ : Type) where
  write : Ctx → τ → Nat → Nat × Option FsError × τ
  close : Ctx → τ → Option FsError

/-- LimitedReadCloser: an underlying reader state R plus the remaining
byte budget N (an int64 in the source). -/
structure LimitedReadCloser (σ : Type) where
  R : σ
  N : Int
deriving DecidableEq, Repr

/-- Length of the buffer slice actually handed to the underlying
reader: the source truncates p to p[0:l.N] when int64(len(p)) > l.N. -/
def truncLen (N : Int) (plen : Nat) : Nat :=
  if (plen : Int) > N then N.toNat else plen

/-- LimitedReadCloser.Read: if the budget is non-positive, report
end-of-stream with 0 bytes and leave everything untouched; otherwise
truncate the buffer to the budget, delegate to the underlying reader,
and decrement the budget by the reported byte count. -/
def LimitedReadCloser.Read (m : ReadCloserM σ) (ctx : Ctx)
    (l : LimitedReadCloser σ) (plen : Nat) :
    Nat × Option FsError × LimitedReadCloser σ :=
  if l.N ≤ 0 then
    (0, some FsError.eof, l)
  else
    let r := m.read ctx l.R (truncLen l.N plen)
    (r.1, r.2.1, ⟨r.2.2, l.N - (r.1 : Int)⟩)

/-- LimitedReadCloser.Close: delegate to the underlying close. -/
def LimitedReadCloser.Close (m : ReadCloserM σ) (ctx : Ctx)
    (l : LimitedReadCloser σ) : Option FsError :=
  m.close ctx l.R

/-- Run a sequence of Read calls with the given buffer lengths,
returning the total byte count delivered and the final decorator
state. -/
def runReads (m : ReadCloserM σ) (ctx : Ctx) :
    LimitedReadCloser σ → List Nat → Nat × LimitedReadCloser σ
  | l, [] => (0, l)
  | l, req :: rest =>
    let r := LimitedReadCloser.Read m ctx l req
    let t := runReads m ctx r.2.2 rest
    (r.1 + t.1, t.2)

/-- An underlying stream with unbounded data: every read fills the
requested buffer completely and reports no error. -/
def fullFill : ReadCloserM Unit :=
  ⟨fun _ _ plen => (plen, none, ()), fun _ _ => none⟩

/-- An underlying stream that always fails: reads report 0 bytes and a
fixed backend error, close reports the same error (the failing mock of
the source tests). -/
def mockFail : ReadCloserM Unit :=
  ⟨fun _ _ _ => (0, some (FsError.other 1), ()), fun _ _ => some (FsError.other 1)⟩

/-- Instrument a reader model with an invocation counter: the state is
paired with the number of underlying read calls performed so far. -/
def countingModel (m : ReadCloserM σ) : ReadCloserM (σ × Nat) :=
  ⟨fun ctx s k =>
    let r := m.read ctx s.1 k
    (r.1, r.2.1, (r.2.2, s.2 + 1)),
   fun ctx s => m.close ctx s.1⟩

/-- A URL: the scheme selects the backend, the rest (path, query, ...)
is opaque to the dispatch layer. -/
structure URL where
  scheme : String
  rest : String
deriving DecidableEq, Repr

/-- The FileSystem interface: the six operations a backend implements.
Handles (ReadCloser, WriteCloser, CancelWatchFunc, the error channel)
are opaque at the dispatch layer and are drawn from a type eta; the
Go multi-value return (value, error) is a pair of Option slots, with
none standing for the nil of the source.  WatchFile additionally takes
the watch callback, opaque here as an index. -/
structure FileSystem (η : Type) where
  OpenReader : Ctx → URL → Option η × Option FsError
  OpenWriter : Ctx → URL → Option η × Option FsError
  OpenAppender : Ctx → URL → Option η × Option FsError
  ListEntries : Ctx → URL → Option (List String) × Option FsError
  WatchFile : Ctx → URL → Nat → Option η × Option η × Option FsError
  Remove : Ctx → URL → Option FsError

/-- The registry map from scheme to implementation
(registeredFileSystems in the source), passed explicitly. -/
def Registry (η : Type) : Type := String → Option (FileSystem η)

/-- The initial, empty registry (make(map[string]FileSystem)). -/
def emptyRegistry : Registry η := fun _ => none

/-- AddImplementation: overwrite the association for the scheme. -/
def AddImplementation (reg : Registry η) (scheme : String)
    (fs : FileSystem η) : Registry η :=
  fun s => if s = scheme then some fs else reg s

/-- GetImplementation: if the map holds the scheme of the URL, return
the stored implementation, else nil (the source probes the map, then
indexes it again). -/
def GetImplementation (reg : Registry η) (fileurl : URL) :
    Option (FileSystem η) :=
  if (reg fileurl.scheme).isSome then reg fileurl.scheme else none

/-- HasImplementation: whether the map holds the scheme. -/
def HasImplementation (reg : Registry η) (scheme : String) : Bool :=
  (reg scheme).isSome

/-- Dispatch OpenReader: resolve the scheme, return (nil, ENOFS) when
no implementation is registered, otherwise forward. -/
def OpenReader (reg : Registry η) (ctx : Ctx) (fileurl : URL) :
    Option η × Option FsError :=
  match GetImplementation reg fileurl with
  | none => (none, some FsError.enofs)
  | some fs => fs.OpenReader ctx fileurl

/-- Dispatch OpenWriter: as OpenReader. -/
def OpenWriter (reg : Registry η) (ctx : Ctx) (fileurl : URL) :
    Option η × Option FsError :=
  match GetImplementation reg fileurl with
  | none => (none, some FsError.enofs)
  | some fs => fs.OpenWriter ctx fileurl

/-- Dispatch OpenAppender: as OpenReader. -/
def OpenAppender (reg : Registry η) (ctx : Ctx) (fileurl : URL) :
    Option η × Option FsError :=
  match GetImplementation reg fileurl with
  | none => (none, some FsError.enofs)
  | some fs => fs.OpenAppender ctx fileurl

/-- Dispatch ListEntries: as OpenReader. -/
def ListEntries (reg : Registry η) (ctx : Ctx) (dirurl : URL) :
    Option (List String) × Option FsError :=
  match GetImplementation reg dirurl with
  | none => (none, some FsError.enofs)
  | some fs => fs.ListEntries ctx dirurl

/-- Dispatch WatchFile: returns (nil, nil, ENOFS) when no
implementation is registered, otherwise forwards with the watcher. -/
def WatchFile (reg : Registry η) (ctx : Ctx) (fileurl : URL)
    (watcher : Nat) : Option η × Option η × Option FsError :=
  match GetImplementation reg fileurl with
  | none => (none, none, some FsError.enofs)
  | some fs => fs.WatchFile ctx fileurl watcher

/-- Dispatch Remove: returns ENOFS when no implementation is
registered, otherwise forwards. -/
def Remove (reg : Registry η) (ctx : Ctx) (fileurl : URL) :
    Option FsError :=
  match GetImplementation reg fileurl with
  | none => some FsError.enofs
  | some fs => fs.Remove ctx fileurl

/-- The io-compatibility wrapper around a context-aware ReadCloser:
it stores the wrapped reader state. -/
structure ioCompatReadCloser (σ : Type) where
  readCloser : σ

/-- The adapter Read: issue the underlying read with the background
context. -/
def ioCompatReadCloser.Read (m : ReadCloserM σ)
    (rc : ioCompatReadCloser σ) (plen : Nat) : Nat × Option FsError × σ :=
  m.read Ctx.background rc.readCloser plen

/-- The adapter Close: issue the underlying close with the background
context. -/
def ioCompatReadCloser.Close (m : ReadCloserM σ)
    (rc : ioCompatReadCloser σ) : Option FsError :=
  m.close Ctx.background rc.readCloser

/-- ToIoReadCloser wraps a context-aware reader state in the adapter. -/
def ToIoReadCloser (rc : σ) : ioCompatReadCloser σ := ⟨rc⟩

/-- The io-compatibility wrapper around a context-aware WriteCloser. -/
structure ioCompatWriteCloser (τ : Type) where
  writeCloser : τ

/-- The adapter Write: issue the underlying write with the background
context. -/
def ioCompatWriteCloser.Write (m : WriteCloserM τ)
    (wc : ioCompatWriteCloser τ) (plen : Nat) : Nat × Option FsError × τ :=
  m.write Ctx.background wc.writeCloser plen

/-- The adapter Close for writers: issue the underlying close with the
background context. -/
def ioCompatWriteCloser.Close (m : WriteCloserM τ)
    (wc : ioCompatWriteCloser τ) : Option FsError :=
  m.close Ctx.background wc.writeCloser

/-- ToIoWriteCloser wraps a context-aware writer state in the adapter. -/
def ToIoWriteCloser (wc : τ) : ioCompatWriteCloser τ := ⟨wc⟩

/-- A concrete backend over Nat handles, used as a witness input. -/
def fsA : FileSystem Nat :=
  ⟨fun _ _ => (some 1, none),
   fun _ _ => (some 2, none),
   fun _ _ => (some 3, none),
   fun _ _ => (some ["a"], none),
   fun _ _ _ => (some 4, some 5, none),
   fun _ _ => none⟩

/-- A second concrete backend, distinguishable from the first, used as
a witness input. -/
def fsB : FileSystem Nat :=
  ⟨fun _ _ => (some 10, none),
   fun _ _ => (none, some FsError.eunsupp),
   fun _ _ => (none, some FsError.eunsupp),
   fun _ _ => (none, some FsError.eunsupp),
   fun _ _ _ => (none, none, some FsError.eunsupp),
   fun _ _ => some FsError.eunsupp⟩

/-- A one-entry registry over Nat handles, used as a witness input. -/
def regFile : Registry Nat :=
  AddImplementation (emptyRegistry : Registry Nat) "file" fsA

/-- Helper: when the budget is non-negative, the truncated buffer
length never exceeds the budget. -/
theorem truncLen_le (N : Int) (h : 0 ≤ N) (plen : Nat) :
    (truncLen N plen : Int) ≤ N := by
  unfold truncLen
  split
  · simp [Int.toNat_of_nonneg h]
  · omega

/-- Helper: budget conservation for the full-fill stream: across any
sequence of reads, the delivered total plus the final budget equals
the initial budget, and the budget never becomes negative. -/
theorem runReads_fullFill_conserve (ctx : Ctx) (reqs : List Nat) :
    ∀ l : LimitedReadCloser Unit, 0 ≤ l.N →
      ((runReads fullFill ctx l reqs).1 : Int) +
          ((runReads fullFill ctx l reqs).2).N = l.N ∧
      0 ≤ ((runReads fullFill ctx l reqs).2).N := by
  induction reqs with
  | nil => exact fun l h => ⟨by simp [runReads], by simpa [runReads] using h⟩
  | cons req rest ih =>
    intro l h
    by_cases hle : l.N ≤ 0
    · have hstep : LimitedReadCloser.Read fullFill ctx l req
          = (0, some FsError.eof, l) := by
        simp [LimitedReadCloser.Read, hle]
      obtain ⟨h1, h2⟩ := ih l h
      simp only [runReads, hstep]
      refine ⟨?_, h2⟩
      push_cast at h1 ⊢
      omega
    · have h0 : (0 : Int) < l.N := lt_of_not_le hle
      have hk : (truncLen l.N req : Int) ≤ l.N := truncLen_le l.N h0.le req
      have hstep : LimitedReadCloser.Read fullFill ctx l req
          = (truncLen l.N req, none,
             ⟨(), l.N - (truncLen l.N req : Int)⟩) := by
        simp [LimitedReadCloser.Read, hle, fullFill]
      have hN2 : (0 : Int) ≤ l.N - (truncLen l.N req : Int) := by omega
      obtain ⟨h1, h2⟩ := ih ⟨(), l.N - (truncLen l.N req : Int)⟩ hN2
      have h1' : ((runReads fullFill ctx
              ⟨(), l.N - (truncLen l.N req : Int)⟩ rest).1 : Int) +
            ((runReads fullFill ctx
              ⟨(), l.N - (truncLen l.N req : Int)⟩ rest).2).N
          = l.N - (truncLen l.N req : Int) := h1
      simp only [runReads, hstep]
      refine ⟨?_, h2⟩
      push_cast at h1' ⊢
      omega

/-- C1: with a non-negative budget N over a stream that always fills
the requested buffer without error, any sequence of reads that
exhausts the budget delivers exactly N bytes in total, and the next
read after exhaustion returns (0, end-of-stream) leaving the state
unchanged. -/
theorem c1_total_delivery_equals_budget (N : Int) (hN : 0 ≤ N)
    (ctx : Ctx) (reqs : List Nat) (k : Nat)
    (hex : ((runReads fullFill ctx ⟨(), N⟩ reqs).2).N ≤ 0) :
    ((runReads fullFill ctx ⟨(), N⟩ reqs).1 : Int) = N ∧
    LimitedReadCloser.Read fullFill ctx
        (runReads fullFill ctx ⟨(), N⟩ reqs).2 k
      = (0, some FsError.eof, (runReads fullFill ctx ⟨(), N⟩ reqs).2) := by
  obtain ⟨h1, h2⟩ := runReads_fullFill_conserve ctx reqs ⟨(), N⟩ hN
  have hzero : ((runReads fullFill ctx ⟨(), N⟩ reqs).2).N = 0 :=
    le_antisymm hex h2
  have h1' : ((runReads fullFill ctx ⟨(), N⟩ reqs).1 : Int) +
      ((runReads fullFill ctx ⟨(), N⟩ reqs).2).N = N := h1
  refine ⟨by omega, ?_⟩
  simp [LimitedReadCloser.Read, hzero]

/-- Witness for C1: budget 25, a single read with a 100-byte buffer
exhausts the budget, delivering 25 bytes; the next read reports
end-of-stream. -/
theorem c1_witness :
    ((runReads fullFill Ctx.background ⟨(), 25⟩ [100]).1 : Int) = 25 ∧
    LimitedReadCloser.Read fullFill Ctx.background
        (runReads fullFill Ctx.background ⟨(), 25⟩ [100]).2 100
      = (0, some FsError.eof,
         (runReads fullFill Ctx.background ⟨(), 25⟩ [100]).2) :=
  c1_total_delivery_equals_budget 25 (by decide) Ctx.background [100] 100
    (by decide)

/-- C2: when no implementation is registered for the scheme of the
URL, lookup resolves to nil and every dispatch operation returns the
ENOFS sentinel with nil in all other result slots, whatever backends
are registered under other schemes — so no backend is invoked. -/
theorem c2_unregistered_scheme_enofs (reg : Registry η) (ctx : Ctx)
    (u : URL) (w : Nat) (h : reg u.scheme = none) :
    GetImplementation reg u = none ∧
    OpenReader reg ctx u = (none, some FsError.enofs) ∧
    OpenWriter reg ctx u = (none, some FsError.enofs) ∧
    OpenAppender reg ctx u = (none, some FsError.enofs) ∧
    ListEntries reg ctx u = (none, some FsError.enofs) ∧
    WatchFile reg ctx u w = (none, none, some FsError.enofs) ∧
    Remove reg ctx u = some FsError.enofs := by
  have hg : GetImplementation reg u = none := by
    simp [GetImplementation, h]
  simp [hg, OpenReader, OpenWriter, OpenAppender, ListEntries,
    WatchFile, Remove]

/-- Witness for C2 on the empty registry with an unregistered
scheme. -/
theorem c2_witness :
    GetImplementation (emptyRegistry : Registry Nat) ⟨"xyz", "f"⟩ = none ∧
    OpenReader (emptyRegistry : Registry Nat) Ctx.background ⟨"xyz", "f"⟩
      = (none, some FsError.enofs) ∧
    OpenWriter (emptyRegistry : Registry Nat) Ctx.background ⟨"xyz", "f"⟩
      = (none, some FsError.enofs) ∧
    OpenAppender (emptyRegistry : Registry Nat) Ctx.background ⟨"xyz", "f"⟩
      = (none, some FsError.enofs) ∧
    ListEntries (emptyRegistry : Registry Nat) Ctx.background ⟨"xyz", "f"⟩
      = (none, some FsError.enofs) ∧
    WatchFile (emptyRegistry : Registry Nat) Ctx.background ⟨"xyz", "f"⟩ 0
      = (none, none, some FsError.enofs) ∧
    Remove (emptyRegistry : Registry Nat) Ctx.background ⟨"xyz", "f"⟩
      = some FsError.enofs :=
  c2_unregistered_scheme_enofs emptyRegistry Ctx.background ⟨"xyz", "f"⟩ 0 rfl

/-- C3: with a well-behaved underlying reader (never reporting more
bytes than the buffer length it was handed) and a non-negative budget,
the buffer handed to the underlying reader is the budget-sized prefix
whenever the caller buffer exceeds the budget, the read delivers at
most the remaining budget, and the budget stays non-negative after
the read. -/
theorem c3_no_over_delivery (m : ReadCloserM σ)
    (hm : ∀ ctx s k, (m.read ctx s k).1 ≤ k) (ctx : Ctx)
    (l : LimitedReadCloser σ) (plen : Nat) (h0 : 0 ≤ l.N) :
    (l.N < (plen : Int) → truncLen l.N plen = l.N.toNat) ∧
    ((LimitedReadCloser.Read m ctx l plen).1 : Int) ≤ l.N ∧
    0 ≤ ((LimitedReadCloser.Read m ctx l plen).2.2).N := by
  refine ⟨fun hlt => by simp [truncLen, hlt], ?_, ?_⟩ <;>
    by_cases hle : l.N ≤ 0
  · simp [LimitedReadCloser.Read, hle, h0]
  · have hn : ((m.read ctx l.R (truncLen l.N plen)).1 : Int) ≤ l.N :=
      le_trans (by exact_mod_cast hm ctx l.R (truncLen l.N plen))
        (truncLen_le l.N h0 plen)
    simpa [LimitedReadCloser.Read, hle] using hn
  · simp [LimitedReadCloser.Read, hle, h0]
  · have hn : ((m.read ctx l.R (truncLen l.N plen)).1 : Int) ≤ l.N :=
      le_trans (by exact_mod_cast hm ctx l.R (truncLen l.N plen))
        (truncLen_le l.N h0 plen)
    simp [LimitedReadCloser.Read, hle]
    omega

/-- Witness for C3: budget 25, caller buffer of 100 bytes over the
full-fill stream. -/
theorem c3_witness :
    ((25 : Int) < ((100 : Nat) : Int) → truncLen 25 100 = (25 : Int).toNat) ∧
    ((LimitedReadCloser.Read fullFill Ctx.background ⟨(), 25⟩ 100).1 : Int) ≤ 25 ∧
    0 ≤ ((LimitedReadCloser.Read fullFill Ctx.background ⟨(), 25⟩ 100).2.2).N :=
  c3_no_over_delivery fullFill (fun _ _ k => Nat.le_refl k) Ctx.background
    ⟨(), 25⟩ 100 (by decide)

/-- C4: with positive remaining budget, when the underlying read on
the truncated buffer reports (n, e) for an error e distinct from
end-of-stream, the decorator returns n and exactly e, unwrapped, and
decrements the budget by n; and when the underlying close reports an
error, Close returns that same error unchanged. -/
theorem c4_error_forwarding (m : ReadCloserM σ) (ctx : Ctx)
    (l : LimitedReadCloser σ) (plen n : Nat) (e : FsError) (s2 : σ)
    (h0 : 0 < l.N) (he : e ≠ FsError.eof)
    (hr : m.read ctx l.R (truncLen l.N plen) = (n, some e, s2))
    (e2 : FsError) (hc : m.close ctx l.R = some e2) :
    LimitedReadCloser.Read m ctx l plen
      = (n, some e, ⟨s2, l.N - (n : Int)⟩) ∧
    LimitedReadCloser.Close m ctx l = some e2 := by
  constructor
  · simp [LimitedReadCloser.Read, not_le_of_lt h0, hr]
  · simp [LimitedReadCloser.Close, hc]

/-- Witness for C4: the always-failing mock stream under a budget of
125; read forwards the backend error and decrements by the reported 0
bytes, close forwards the same error. -/
theorem c4_witness :
    LimitedReadCloser.Read mockFail Ctx.background ⟨(), 125⟩ 100
      = (0, some (FsError.other 1), ⟨(), 125 - ((0 : Nat) : Int)⟩) ∧
    LimitedReadCloser.Close mockFail Ctx.background ⟨(), 125⟩
      = some (FsError.other 1) :=
  c4_error_forwarding mockFail Ctx.background ⟨(), 125⟩ 100 0
    (FsError.other 1) () (by decide) (by decide) rfl (FsError.other 1) rfl

/-- C5: with remaining budget exactly 0, the first read returns
(0, end-of-stream) immediately, leaves the decorator unchanged, and
performs no underlying read: the invocation counter of the
instrumented stream does not move. -/
theorem c5_zero_budget_eof (m : ReadCloserM σ) (ctx : Ctx)
    (l : LimitedReadCloser (σ × Nat)) (plen : Nat) (h : l.N = 0) :
    LimitedReadCloser.Read (countingModel m) ctx l plen
      = (0, some FsError.eof, l) ∧
    ((LimitedReadCloser.Read (countingModel m) ctx l plen).2.2).R.2
      = l.R.2 := by
  have heq : LimitedReadCloser.Read (countingModel m) ctx l plen
      = (0, some FsError.eof, l) := by
    simp [LimitedReadCloser.Read, h]
  exact ⟨heq, by simp [heq]⟩

/-- Witness for C5 at budget 0 over the instrumented full-fill
stream. -/
theorem c5_witness :
    LimitedReadCloser.Read (countingModel fullFill) Ctx.background
        ⟨((), 0), 0⟩ 10
      = (0, some FsError.eof, ⟨((), 0), 0⟩) ∧
    ((LimitedReadCloser.Read (countingModel fullFill) Ctx.background
        ⟨((), 0), 0⟩ 10).2.2).R.2 = 0 :=
  c5_zero_budget_eof fullFill Ctx.background ⟨((), 0), 0⟩ 10 rfl

/-- C6: after registering a under scheme s and then b under the same
scheme, lookup on a URL with scheme s resolves to b (never to the
overwritten a), and every dispatch operation forwards to b. -/
theorem c6_last_writer_wins (reg : Registry η) (s : String)
    (a b : FileSystem η) (ctx : Ctx) (u : URL) (w : Nat)
    (hu : u.scheme = s) :
    GetImplementation (AddImplementation (AddImplementation reg s a) s b) u
      = some b ∧
    OpenReader (AddImplementation (AddImplementation reg s a) s b) ctx u
      = b.OpenReader ctx u ∧
    OpenWriter (AddImplementation (AddImplementation reg s a) s b) ctx u
      = b.OpenWriter ctx u ∧
    OpenAppender (AddImplementation (AddImplementation reg s a) s b) ctx u
      = b.OpenAppender ctx u ∧
    ListEntries (AddImplementation (AddImplementation reg s a) s b) ctx u
      = b.ListEntries ctx u ∧
    WatchFile (AddImplementation (AddImplementation reg s a) s b) ctx u w
      = b.WatchFile ctx u w ∧
    Remove (AddImplementation (AddImplementation reg s a) s b) ctx u
      = b.Remove ctx u := by
  have hg : GetImplementation
      (AddImplementation (AddImplementation reg s a) s b) u = some b := by
    simp [GetImplementation, AddImplementation, hu]
  simp [hg, OpenReader, OpenWriter, OpenAppender, ListEntries,
    WatchFile, Remove]

/-- Witness for C6: registering fsA then fsB under the file scheme
resolves to fsB. -/
theorem c6_witness :
    GetImplementation
        (AddImplementation
          (AddImplementation (emptyRegistry : Registry Nat) "file" fsA)
          "file" fsB) ⟨"file", "x"⟩
      = some fsB ∧
    OpenReader
        (AddImplementation
          (AddImplementation (emptyRegistry : Registry Nat) "file" fsA)
          "file" fsB) Ctx.background ⟨"file", "x"⟩
      = fsB.OpenReader Ctx.background ⟨"file", "x"⟩ ∧
    OpenWriter
        (AddImplementation
          (AddImplementation (emptyRegistry : Registry Nat) "file" fsA)
          "file" fsB) Ctx.background ⟨"file", "x"⟩
      = fsB.OpenWriter Ctx.background ⟨"file", "x"⟩ ∧
    OpenAppender
        (AddImplementation
          (AddImplementation (emptyRegistry : Registry Nat) "file" fsA)
          "file" fsB) Ctx.background ⟨"file", "x"⟩
      = fsB.OpenAppender Ctx.background ⟨"file", "x"⟩ ∧
    ListEntries
        (AddImplementation
          (AddImplementation (emptyRegistry : Registry Nat) "file" fsA)
          "file" fsB) Ctx.background ⟨"file", "x"⟩
      = fsB.ListEntries Ctx.background ⟨"file", "x"⟩ ∧
    WatchFile
        (AddImplementation
          (AddImplementation (emptyRegistry : Registry Nat) "file" fsA)
          "file" fsB) Ctx.background ⟨"file", "x"⟩ 7
      = fsB.WatchFile Ctx.background ⟨"file", "x"⟩ 7 ∧
    Remove
        (AddImplementation
          (AddImplementation (emptyRegistry : Registry Nat) "file" fsA)
          "file" fsB) Ctx.background ⟨"file", "x"⟩
      = fsB.Remove Ctx.background ⟨"file", "x"⟩ :=
  c6_last_writer_wins emptyRegistry "file" fsA fsB Ctx.background
    ⟨"file", "x"⟩ 7 rfl

/-- C7: the adapters produced by ToIoReadCloser and ToIoWriteCloser
forward Read, Write and Close verbatim to the wrapped stream, invoked
with the background context: same byte count, same error, same
successor state — no added state, no error translation. -/
theorem c7_io_compat_forwarding (mr : ReadCloserM σ) (mw : WriteCloserM τ)
    (s : σ) (t : τ) (plen : Nat) :
    ioCompatReadCloser.Read mr (ToIoReadCloser s) plen
      = mr.read Ctx.background s plen ∧
    ioCompatReadCloser.Close mr (ToIoReadCloser s)
      = mr.close Ctx.background s ∧
    ioCompatWriteCloser.Write mw (ToIoWriteCloser t) plen
      = mw.write Ctx.background t plen ∧
    ioCompatWriteCloser.Close mw (ToIoWriteCloser t)
      = mw.close Ctx.background t :=
  ⟨rfl, rfl, rfl, rfl⟩

/-- C9: with any non-positive remaining budget, negative values
included, Read returns (0, end-of-stream) and hands back the decorator
with both fields, budget N and reader R, unchanged; the equation holds
for every underlying stream model m uniformly, so no underlying read
is performed. -/
theorem c9_nonpositive_budget_frame (m : ReadCloserM σ) (ctx : Ctx)
    (l : LimitedReadCloser σ) (plen : Nat) (h : l.N ≤ 0) :
    LimitedReadCloser.Read m ctx l plen = (0, some FsError.eof, l) := by
  simp [LimitedReadCloser.Read, h]

/-- Witness for C9 at the negative budget -5. -/
theorem c9_witness :
    LimitedReadCloser.Read mockFail Ctx.background ⟨(), -5⟩ 3
      = (0, some FsError.eof, ⟨(), -5⟩) :=
  c9_nonpositive_budget_frame mockFail Ctx.background ⟨(), -5⟩ 3 (by decide)

/-- C10: lookup returns nil exactly when HasImplementation is false
for the scheme of the URL; and when HasImplementation is true, lookup
returns exactly the map entry currently registered for that scheme. -/
theorem c10_get_has_agreement (reg : Registry η) (u : URL) :
    (GetImplementation reg u = none ↔
      HasImplementation reg u.scheme = false) ∧
    (HasImplementation reg u.scheme = true →
      GetImplementation reg u = reg u.scheme) := by
  cases hc : reg u.scheme <;>
    simp [GetImplementation, HasImplementation, hc]

/-- Witness for C10 on a one-entry registry: HasImplementation holds
for the file scheme and lookup returns the registered entry. -/
theorem c10_witness :
    GetImplementation regFile ⟨"file", "x"⟩ = regFile "file" :=
  (c10_get_has_agreement regFile ⟨"file", "x"⟩).2 rfl

end Filesystem
